import Mathlib

/-!
Verification of the `fred.rs` client-library excerpt (`src/types/client.rs`)
and of the connection-engine behaviour described by its specification.

The first part shallowly embeds the Rust source: the command-argument enums
(`ClientKillType`, `ClientKillFilter`, `ClientPauseKind`, `ClientReplyFlag`,
`ClientUnblockFlag`, `Toggle`) with their wire-token conversions, and the
`Invalidation::from_message` adapter over `RedisValue` push payloads.

The second part models, from the specification, the parts of the engine that
are not included in the excerpt: the per-connection FIFO request queue, the
disconnect reconciliation, MOVED redirection handling, the atomically swapped
cluster slot map, and topology discovery.
-/

namespace Fred

/-! ## Data model from `src/types/client.rs` -/

/-- The type of clients to close (`CLIENT KILL` argument). -/
inductive ClientKillType where
  | Normal
  | Master
  | Replica
  | Pubsub
deriving DecidableEq, Repr

/-- Embeds `ClientKillType::to_str`. -/
def ClientKillType.toStr : ClientKillType → String
  | .Normal => "normal"
  | .Master => "master"
  | .Replica => "replica"
  | .Pubsub => "pubsub"

/-- Filters provided to the `CLIENT KILL` command. -/
inductive ClientKillFilter where
  | ID (id : String)
  | Type (kind : ClientKillType)
  | User (user : String)
  | Addr (addr : String)
  | LAddr (addr : String)
  | SkipMe (b : Bool)
deriving DecidableEq, Repr

/-- Embeds `ClientKillFilter::to_str`, returning the `(prefix, value)` pair. -/
def ClientKillFilter.toStr : ClientKillFilter → String × String
  | .ID id => ("ID", id)
  | .Type kind => ("TYPE", kind.toStr)
  | .User user => ("USER", user)
  | .Addr addr => ("ADDR", addr)
  | .LAddr addr => ("LADDR", addr)
  | .SkipMe b => ("SKIPME", match b with
      | true => "yes"
      | false => "no")

/-- Filters for the `CLIENT PAUSE` command. -/
inductive ClientPauseKind where
  | Write
  | All
deriving DecidableEq, Repr

/-- Embeds `ClientPauseKind::to_str`. -/
def ClientPauseKind.toStr : ClientPauseKind → String
  | .Write => "WRITE"
  | .All => "ALL"

/-- Arguments for the `CLIENT REPLY` command. -/
inductive ClientReplyFlag where
  | On
  | Off
  | Skip
deriving DecidableEq, Repr

/-- Embeds `ClientReplyFlag::to_str`. -/
def ClientReplyFlag.toStr : ClientReplyFlag → String
  | .On => "ON"
  | .Off => "OFF"
  | .Skip => "SKIP"

/-- Arguments to the `CLIENT UNBLOCK` command. -/
inductive ClientUnblockFlag where
  | Timeout
  | Error
deriving DecidableEq, Repr

/-- Embeds `ClientUnblockFlag::to_str`. -/
def ClientUnblockFlag.toStr : ClientUnblockFlag → String
  | .Timeout => "TIMEOUT"
  | .Error => "ERROR"

/-- An `ON|OFF` flag used with client tracking commands. -/
inductive Toggle where
  | On
  | Off
deriving DecidableEq, Repr

/-- Embeds `Toggle::to_str`. -/
def Toggle.toStr : Toggle → String
  | .On => "ON"
  | .Off => "OFF"

/-- Embeds `Toggle::from_str`: the Rust `match` on the string recognises the
four exact literals and falls through to `None` otherwise. -/
def Toggle.fromStr (s : String) : Option Toggle :=
  if s = "ON" ∨ s = "on" then some .On
  else if s = "OFF" ∨ s = "off" then some .Off
  else none

/-- The error kinds of `RedisError` used by this excerpt. -/
inductive RedisErrorKind where
  | Parse
deriving DecidableEq, Repr

/-- Embeds `RedisError` (kind plus detail message). -/
structure RedisError where
  kind : RedisErrorKind
  details : String
deriving DecidableEq, Repr

/-- Embeds `TryFrom<&str> for Toggle`: `from_str` with the parse failure
mapped to a `Parse` error. -/
def Toggle.tryFromStrRef (value : String) : Except RedisError Toggle :=
  match Toggle.fromStr value with
  | some t => .ok t
  | none => .error ⟨.Parse, "Invalid toggle value."⟩

/-- Embeds `TryFrom<String> for Toggle` (same body as the `&str` impl). -/
def Toggle.tryFromString (value : String) : Except RedisError Toggle :=
  match Toggle.fromStr value with
  | some t => .ok t
  | none => .error ⟨.Parse, "Invalid toggle value."⟩

/-- Embeds `TryFrom<&String> for Toggle` (same body as the `&str` impl). -/
def Toggle.tryFromStringRef (value : String) : Except RedisError Toggle :=
  match Toggle.fromStr value with
  | some t => .ok t
  | none => .error ⟨.Parse, "Invalid toggle value."⟩

/-- Embeds `From<bool> for Toggle`. -/
def Toggle.fromBool (value : Bool) : Toggle :=
  if value then .On else .Off

/-- A server identity: host and port (spec section 3: equality by host+port). -/
structure Server where
  host : String
  port : Nat
deriving DecidableEq, Repr

/-- Embeds the `RedisValue` reply-value union of this crate: null, queued,
string, bytes, boolean, integer, double and the aggregate array and map
kinds. The `f64` payload of `Double` is carried opaquely by its bit
pattern; no floating-point arithmetic is modelled. -/
inductive RedisValue where
  | Null
  | Queued
  | Str (s : String)
  | Bytes (b : List Nat)
  | Boolean (b : Bool)
  | Integer (i : Int)
  | Double (bits : Nat)
  | Array (values : List RedisValue)
  | Map (pairs : List (RedisValue × RedisValue))

/-- A key, as produced by converting a scalar `RedisValue`. The byte-level
encoding of the conversion lives outside the excerpt, so a key is modelled
as carrying the scalar value it was converted from. -/
structure RedisKey where
  source : RedisValue

/-- Modelled from the spec: the crate's fallible key conversion
(`TryFrom<RedisValue> for RedisKey`, not included under `src/`). Scalar
values — string, bytes, double, integer, boolean — convert to a key;
null and the aggregate kinds do not. -/
def tryIntoKey : RedisValue → Option RedisKey
  | .Str s => some ⟨.Str s⟩
  | .Bytes b => some ⟨.Bytes b⟩
  | .Double f => some ⟨.Double f⟩
  | .Integer i => some ⟨.Integer i⟩
  | .Boolean b => some ⟨.Boolean b⟩
  | .Queued => some ⟨.Queued⟩
  | _ => none

/-- An unsolicited push message: channel plus payload value. -/
structure Message where
  channel : String
  value : RedisValue

/-- A client-tracking invalidation: affected keys plus originating server. -/
structure Invalidation where
  keys : List RedisKey
  server : Server

/-- Embeds `Invalidation::from_message`: an `Array` payload converts each
element with `filter_map(|v| v.try_into().ok())`; each scalar payload yields
a singleton key; `Null` yields no keys; every other kind is dropped. -/
def Invalidation.fromMessage (message : Message) (server : Server) :
    Option Invalidation :=
  match message.value with
  | .Array values => some ⟨values.filterMap tryIntoKey, server⟩
  | .Str s => some ⟨[⟨.Str s⟩], server⟩
  | .Bytes b => some ⟨[⟨.Bytes b⟩], server⟩
  | .Double f => some ⟨[⟨.Double f⟩], server⟩
  | .Integer i => some ⟨[⟨.Integer i⟩], server⟩
  | .Boolean b => some ⟨[⟨.Boolean b⟩], server⟩
  | .Null => some ⟨[], server⟩
  | _ => none

/-! ## Engine model

The connection/multiplexing engine is not part of the excerpt under `src/`;
the definitions below are modelled from the specification (sections 4.3-4.6
and 8). -/

/-- Modelled from the spec: an in-flight command request (spec section 3):
an identifier, whether its retry policy marks it retryable, and its
remaining attempt budget. -/
structure Request where
  id : Nat
  retryable : Bool
  maxRetries : Nat
deriving DecidableEq, Repr

/-- Modelled from the spec: a decoded frame arriving on one connection's
reply stream — either a command reply or an unsolicited push frame (spec
sections 4.3/4.7). -/
inductive Frame where
  | reply (v : RedisValue)
  | push (v : RedisValue)

/-- Modelled from the spec: the per-connection state — the FIFO queue of
in-flight requests (oldest first) and the log of resolved
(request, reply) pairs in resolution order. -/
structure ConnState where
  queue : List Request
  resolved : List (Request × RedisValue)

/-- Modelled from the spec (section 4.3/4.7, `connection_task` read loop):
a push frame is routed to the Push Dispatcher and leaves the request queue
untouched; a reply pops the oldest outstanding entry and resolves it with
the reply value. -/
def processFrame (st : ConnState) : Frame → ConnState
  | .push _ => st
  | .reply v =>
    match st.queue with
    | [] => st
    | r :: rest => { queue := rest, resolved := st.resolved ++ [(r, v)] }

/-- Modelled from the spec: the receive loop folds `processFrame` over the
frames in arrival order. -/
def processFrames (st : ConnState) (frames : List Frame) : ConnState :=
  frames.foldl processFrame st

/-- The command replies carried by a frame stream, in arrival order, with
push frames filtered out. -/
def replyPayloads (frames : List Frame) : List RedisValue :=
  frames.filterMap fun f =>
    match f with
    | .reply v => some v
    | .push _ => none

/-- Modelled from the spec (section 7 taxonomy): how an in-flight request
is ultimately resolved. -/
inductive Resolution where
  | success (v : RedisValue)
  | connectionLost
  | retriesExhausted
  | timeout
  | protocolError

/-- Modelled from the spec (section 4.4): the bounded retry loop for one
resubmitted request. Each element of `attempts` is one retry outcome
(`some v` = the retried command completed with `v`, `none` = that attempt
failed with a retryable error); the attempt budget bounds the loop and
exhausting it yields `RetriesExhausted` wrapping the last error. -/
def retryLoop : Nat → List (Option RedisValue) → Resolution
  | 0, _ => .retriesExhausted
  | _ + 1, [] => .retriesExhausted
  | n + 1, none :: rest => retryLoop n rest
  | _ + 1, some v :: _ => .success v

/-- Modelled from the spec (section 4.6): reconciling one entry drained
from a lost connection's queue — requests marked retryable are resubmitted
through the retry loop; others are failed with `ConnectionLost`. -/
def reconcile (r : Request) (attempts : List (Option RedisValue)) :
    Resolution :=
  if r.retryable then retryLoop r.maxRetries attempts else .connectionLost

/-- Modelled from the spec (section 4.6): reconciliation of the whole
drained queue; `attemptsFor` supplies each request's retry outcomes. -/
def reconcileAll (drained : List Request)
    (attemptsFor : Request → List (Option RedisValue)) :
    List (Request × Resolution) :=
  drained.map fun r => (r, reconcile r (attemptsFor r))

/-- Resolutions a request drained by a disconnect may receive, per the
spec: retried-and-succeeded, `ConnectionLost`, or `RetriesExhausted`. -/
def disconnectOutcome : Resolution → Prop
  | .success _ => True
  | .connectionLost => True
  | .retriesExhausted => True
  | .timeout => False
  | .protocolError => False

/-- Modelled from the spec (section 4.4): a reply decoded for the oldest
in-flight command in cluster mode — a plain value, or an embedded
`MOVED`/`ASK` redirection naming a slot and a server. -/
inductive ClusterReply where
  | value (v : RedisValue)
  | moved (slot : Nat) (target : Server)
  | ask (slot : Nat) (target : Server)

/-- Modelled from the spec (section 4.4): what the Multiplexer does with
the command after inspecting its reply — fulfill the caller, surface an
error to the caller, or transparently re-route to a server. -/
inductive Action where
  | complete (v : RedisValue)
  | fail (e : RedisError)
  | retryAt (target : Server) (askRedirect : Bool)

/-- Modelled from the spec (sections 4.4/4.5): the Multiplexer state seen
by redirection handling — the slot-ownership view and whether a topology
refresh has been scheduled. -/
structure MuxState where
  slotOwner : Nat → Server
  refreshScheduled : Bool

/-- Modelled from the spec (section 4.4): redirection handling. A `MOVED`
reply re-routes the original command to the named server instead of
surfacing an error, and triggers an asynchronous topology refresh; an
`ASK` reply re-routes one-shot without scheduling a refresh; a plain value
fulfills the caller. -/
def handleReply (st : MuxState) : ClusterReply → Action × MuxState
  | .value v => (.complete v, st)
  | .moved _ target => (.retryAt target false, { st with refreshScheduled := true })
  | .ask _ target => (.retryAt target true, st)

/-- Modelled from the spec (section 4.5): a completed topology refresh
replaces the slot-ownership view wholesale and clears the scheduled flag. -/
def applyRefresh (_st : MuxState) (newOwner : Nat → Server) : MuxState :=
  { slotOwner := newOwner, refreshScheduled := false }

/-- Modelled from the spec (section 4.4): routing a keyed command — look up
the owning server for its slot. -/
def routeCommand (st : MuxState) (slot : Nat) : Server :=
  st.slotOwner slot

/-- A complete cluster slot map: the owning server of every slot. -/
def SlotMap : Type := Nat → Server

/-- Modelled from the spec (section 5): the shared slot-map cell. Writers
build a complete new map and publish it by a single atomic pointer swap;
readers take a snapshot of the whole current map. -/
structure SharedSlotMap where
  current : SlotMap

/-- Modelled from the spec: the only mutation of the shared cell is
publishing a complete map. -/
inductive TopoEvent where
  | publish (m : SlotMap)

/-- Applying one publish event swaps in the new complete map. -/
def applyTopoEvent (_st : SharedSlotMap) : TopoEvent → SharedSlotMap
  | .publish m => { current := m }

/-- The shared cell after the first `t` events of a publish history. -/
def cellAt (init : SharedSlotMap) (events : List TopoEvent) (t : Nat) :
    SharedSlotMap :=
  (events.take t).foldl applyTopoEvent init

/-- Modelled from the spec: a concurrent reader's snapshot at time `t` is
the whole map published most recently before `t`. -/
def readSnapshot (init : SharedSlotMap) (events : List TopoEvent) (t : Nat) :
    SlotMap :=
  (cellAt init events t).current

/-- The map a publish event carries. -/
def TopoEvent.payload : TopoEvent → SlotMap
  | .publish m => m

/-- The cluster error kinds of spec section 7 involved in routing and
discovery. -/
inductive ClusterError where
  | ClusterStateError
  | RoutingError
deriving DecidableEq, Repr

/-- The real protocol's slot count. -/
def totalSlots : Nat := 16384

/-- Modelled from the spec (section 3): one entry of the discovered
ownership table — a slot range and its owning server. -/
structure SlotRange where
  start : Nat
  last : Nat
  primary : Server

/-- The owner the discovered table assigns to a slot, if any range covers
it. -/
def rangeOwner (ranges : List SlotRange) (slot : Nat) : Option Server :=
  (ranges.find? fun r => decide (r.start ≤ slot) && decide (slot ≤ r.last)).map
    (fun r => r.primary)

/-- Modelled from the spec (section 4.5): discovery parses the ownership
table into the full 16384-slot partition and fails with
`ClusterStateError` when some slot is unowned. -/
def discover (ranges : List SlotRange) :
    Except ClusterError (Nat → Option Server) :=
  if (List.range totalSlots).all fun s => (rangeOwner ranges s).isSome then
    .ok (rangeOwner ranges)
  else
    .error .ClusterStateError

/-- Modelled from the spec (section 7): routing a command through a
possibly incomplete map — a slot with no known owner fails with
`RoutingError`. -/
def routeSlot (map : Nat → Option Server) (slot : Nat) :
    Except ClusterError Server :=
  match map slot with
  | some s => .ok s
  | none => .error .RoutingError

/-- Modelled from the spec (section 4.5): a discovery outcome updates the
held map only when it succeeded; a failed discovery leaves the previous
(still incomplete) map in place. -/
def applyDiscovery (map : Nat → Option Server) (ranges : List SlotRange) :
    Nat → Option Server :=
  match discover ranges with
  | .ok m => m
  | .error _ => map

/-- The map held before any successful discovery: no slot has a known
owner. -/
def emptySlotMap : Nat → Option Server := fun _ => none

/-! ## Helper lemmas -/

/-- The `ClientKillType` wire tokens are pairwise distinct. -/
lemma clientKillType_toStr_injective :
    Function.Injective ClientKillType.toStr := by
  intro a b h
  cases a <;> cases b <;> first | rfl | (exact absurd h (by decide))

/-- The `ClientKillFilter` wire-token pairs are pairwise distinct. -/
lemma clientKillFilter_toStr_injective :
    Function.Injective ClientKillFilter.toStr := by
  intro a b h
  cases a <;> cases b <;>
    simp only [ClientKillFilter.toStr, Prod.mk.injEq] at h <;>
    first
      | exact congrArg _ h.2
      | exact congrArg _ (clientKillType_toStr_injective h.2)
      | exact absurd h.1 (by decide)
      | skip
  rename_i b1 b2
  cases b1 <;> cases b2 <;> first | rfl | exact absurd h.2 (by decide)

/-- Mapping `some` over a `filterMap` whose function succeeds everywhere
recovers the plain map. -/
lemma map_some_filterMap {α β : Type} (f : α → Option β) :
    ∀ l : List α, (∀ v ∈ l, (f v).isSome) →
      (l.filterMap f).map some = l.map f := by
  intro l
  induction l with
  | nil => intro _; rfl
  | cons v l ih =>
    intro h
    obtain ⟨k, hk⟩ :=
      Option.isSome_iff_exists.mp (h v (List.mem_cons_self v l))
    simp only [List.filterMap_cons, hk, List.map_cons]
    exact congrArg (some k :: ·)
      (ih fun v hv => h v (List.mem_cons_of_mem _ hv))

end Fred

namespace Fred

/-! ## Claims about `src/types/client.rs` -/

/-- Claim C4: every variant of the six command-argument enums is mapped by
its `to_str` conversion to the fixed wire token named in the source, by a
total exhaustive match, and distinct variants of the same enum map to
distinct tokens. -/
theorem claim_C4_wire_tokens :
    (ClientKillType.toStr .Normal = "normal" ∧
      ClientKillType.toStr .Master = "master" ∧
      ClientKillType.toStr .Replica = "replica" ∧
      ClientKillType.toStr .Pubsub = "pubsub") ∧
    ((∀ id, (ClientKillFilter.ID id).toStr = ("ID", id)) ∧
      (∀ k, (ClientKillFilter.Type k).toStr = ("TYPE", k.toStr)) ∧
      (∀ u, (ClientKillFilter.User u).toStr = ("USER", u)) ∧
      (∀ a, (ClientKillFilter.Addr a).toStr = ("ADDR", a)) ∧
      (∀ a, (ClientKillFilter.LAddr a).toStr = ("LADDR", a)) ∧
      (ClientKillFilter.SkipMe true).toStr = ("SKIPME", "yes") ∧
      (ClientKillFilter.SkipMe false).toStr = ("SKIPME", "no")) ∧
    (ClientPauseKind.toStr .Write = "WRITE" ∧
      ClientPauseKind.toStr .All = "ALL") ∧
    (ClientReplyFlag.toStr .On = "ON" ∧
      ClientReplyFlag.toStr .Off = "OFF" ∧
      ClientReplyFlag.toStr .Skip = "SKIP") ∧
    (ClientUnblockFlag.toStr .Timeout = "TIMEOUT" ∧
      ClientUnblockFlag.toStr .Error = "ERROR") ∧
    (Toggle.toStr .On = "ON" ∧ Toggle.toStr .Off = "OFF") ∧
    (∀ a b : ClientKillType, a ≠ b → a.toStr ≠ b.toStr) ∧
    (∀ a b : ClientKillFilter, a ≠ b → a.toStr ≠ b.toStr) ∧
    (∀ a b : ClientPauseKind, a ≠ b → a.toStr ≠ b.toStr) ∧
    (∀ a b : ClientReplyFlag, a ≠ b → a.toStr ≠ b.toStr) ∧
    (∀ a b : ClientUnblockFlag, a ≠ b → a.toStr ≠ b.toStr) ∧
    (∀ a b : Toggle, a ≠ b → a.toStr ≠ b.toStr) := by
  refine ⟨⟨rfl, rfl, rfl, rfl⟩,
    ⟨fun _ => rfl, fun _ => rfl, fun _ => rfl, fun _ => rfl, fun _ => rfl,
      rfl, rfl⟩,
    ⟨rfl, rfl⟩, ⟨rfl, rfl, rfl⟩, ⟨rfl, rfl⟩, ⟨rfl, rfl⟩,
    fun a b hne heq => hne (clientKillType_toStr_injective heq),
    fun a b hne heq => hne (clientKillFilter_toStr_injective heq),
    fun a b hne heq =>
      hne (by cases a <;> cases b <;> first | rfl | exact absurd heq (by decide)),
    fun a b hne heq =>
      hne (by cases a <;> cases b <;> first | rfl | exact absurd heq (by decide)),
    fun a b hne heq =>
      hne (by cases a <;> cases b <;> first | rfl | exact absurd heq (by decide)),
    fun a b hne heq =>
      hne (by cases a <;> cases b <;> first | rfl | exact absurd heq (by decide))⟩

/-- Witness for claim C4 at a concrete pair of filter variants. -/
theorem claim_C4_wire_tokens_witness :
    (ClientKillFilter.ID "7").toStr ≠ (ClientKillFilter.User "7").toStr :=
  claim_C4_wire_tokens.2.2.2.2.2.2.2.1 (.ID "7") (.User "7") (by decide)

/-- Claim C9: `Toggle::from_str` inverts `to_str`, accepts exactly the four
exact-case strings, and rejects everything else, including mixed case. -/
theorem claim_C9_toggle_roundtrip :
    (∀ t : Toggle, Toggle.fromStr t.toStr = some t) ∧
    (∀ s t, Toggle.fromStr s = some t ↔
      ((s = "ON" ∨ s = "on") ∧ t = .On) ∨
        ((s = "OFF" ∨ s = "off") ∧ t = .Off)) ∧
    (∀ s, Toggle.fromStr s = none ↔
      ¬(s = "ON" ∨ s = "on" ∨ s = "OFF" ∨ s = "off")) ∧
    Toggle.fromStr "On" = none := by
  refine ⟨fun t => by cases t <;> rfl, fun s t => ?_, fun s => ?_, by decide⟩
  · unfold Toggle.fromStr
    split_ifs with h1 h2
    · rcases h1 with rfl | rfl <;> cases t <;> simp
    · rcases h2 with rfl | rfl <;> cases t <;> simp_all
    · cases t <;> simp_all
  · unfold Toggle.fromStr
    split_ifs with h1 h2
    · rcases h1 with rfl | rfl <;> simp
    · rcases h2 with rfl | rfl <;> simp
    · simp_all

/-- Witness for claim C9 at the concrete lowercase string. -/
theorem claim_C9_toggle_roundtrip_witness :
    Toggle.fromStr "on" = some .On :=
  (claim_C9_toggle_roundtrip.2.1 "on" .On).mpr (Or.inl ⟨Or.inr rfl, rfl⟩)

/-- Claim C10: the three `TryFrom` conversions to `Toggle` agree with each
other and with `from_str`, and failures carry a `Parse` error. -/
theorem claim_C10_tryfrom_agree :
    ∀ s : String,
      Toggle.tryFromStrRef s = Toggle.tryFromString s ∧
      Toggle.tryFromStrRef s = Toggle.tryFromStringRef s ∧
      (∀ t, Toggle.tryFromStrRef s = .ok t ↔ Toggle.fromStr s = some t) ∧
      (Toggle.fromStr s = none →
        Toggle.tryFromStrRef s = .error ⟨.Parse, "Invalid toggle value."⟩) := by
  intro s
  cases h : Toggle.fromStr s <;>
    simp [Toggle.tryFromStrRef, Toggle.tryFromString, Toggle.tryFromStringRef, h]

/-- Witness for claim C10 at a concrete rejected string. -/
theorem claim_C10_tryfrom_agree_witness :
    Toggle.tryFromStrRef "On" = .error ⟨.Parse, "Invalid toggle value."⟩ :=
  (claim_C10_tryfrom_agree "On").2.2.2 (by decide)

/-- Claim C3: an invalidation push whose value is an array of
key-convertible values yields `Some` of an invalidation whose keys are
exactly those values converted in order and whose server is the supplied
one, and each scalar value yields a one-element key list. -/
theorem claim_C3_invalidation_keys (m : Message) (srv : Server)
    (vs : List RedisValue) (hm : m.value = .Array vs)
    (hconv : ∀ v ∈ vs, (tryIntoKey v).isSome) :
    (∃ inv, Invalidation.fromMessage m srv = some inv ∧
      inv.server = srv ∧ inv.keys.map some = vs.map tryIntoKey) ∧
    (∀ ch s srv2,
      Invalidation.fromMessage ⟨ch, .Str s⟩ srv2 = some ⟨[⟨.Str s⟩], srv2⟩) ∧
    (∀ ch b srv2,
      Invalidation.fromMessage ⟨ch, .Bytes b⟩ srv2 = some ⟨[⟨.Bytes b⟩], srv2⟩) ∧
    (∀ ch f srv2,
      Invalidation.fromMessage ⟨ch, .Double f⟩ srv2 = some ⟨[⟨.Double f⟩], srv2⟩) ∧
    (∀ ch i srv2,
      Invalidation.fromMessage ⟨ch, .Integer i⟩ srv2 = some ⟨[⟨.Integer i⟩], srv2⟩) ∧
    (∀ ch b srv2,
      Invalidation.fromMessage ⟨ch, .Boolean b⟩ srv2 = some ⟨[⟨.Boolean b⟩], srv2⟩) := by
  refine ⟨?_, fun _ _ _ => rfl, fun _ _ _ => rfl, fun _ _ _ => rfl,
    fun _ _ _ => rfl, fun _ _ _ => rfl⟩
  obtain ⟨ch, val⟩ := m
  simp only at hm
  subst hm
  exact ⟨⟨vs.filterMap tryIntoKey, srv⟩, rfl, rfl,
    map_some_filterMap tryIntoKey vs hconv⟩

/-- Witness for claim C3 on a concrete two-element array push. -/
theorem claim_C3_invalidation_keys_witness :
    ∃ inv,
      Invalidation.fromMessage
          ⟨"c", .Array [.Str "foo", .Integer 2]⟩ ⟨"h", 1⟩ = some inv ∧
      inv.server = ⟨"h", 1⟩ ∧
      inv.keys.map some =
        [RedisValue.Str "foo", RedisValue.Integer 2].map tryIntoKey :=
  (claim_C3_invalidation_keys ⟨"c", .Array [.Str "foo", .Integer 2]⟩ ⟨"h", 1⟩
    [.Str "foo", .Integer 2] rfl (by decide)).1

/-- Claim C8: `from_message` never fails on key conversion — an array
yields `Some` with the unconvertible elements silently dropped (so the key
list can be shorter than the array), a null value yields `Some` with no
keys, and `None` occurs exactly for the remaining value kinds. -/
theorem claim_C8_invalidation_total (m : Message) (srv : Server) :
    (∀ vs, m.value = .Array vs →
      Invalidation.fromMessage m srv = some ⟨vs.filterMap tryIntoKey, srv⟩ ∧
      (vs.filterMap tryIntoKey).length ≤ vs.length) ∧
    (m.value = .Null → Invalidation.fromMessage m srv = some ⟨[], srv⟩) ∧
    (Invalidation.fromMessage m srv = none ↔
      m.value = .Queued ∨ ∃ ps, m.value = .Map ps) := by
  obtain ⟨ch, val⟩ := m
  cases val <;>
    simp [Invalidation.fromMessage, List.length_filterMap_le]

/-- Witness for claim C8: an array containing an unconvertible element
still yields `Some`, with that element dropped from the key list. -/
theorem claim_C8_invalidation_total_witness :
    Invalidation.fromMessage ⟨"c", .Array [.Null, .Str "k"]⟩ ⟨"h", 1⟩ =
      some ⟨[.Null, .Str "k"].filterMap tryIntoKey, ⟨"h", 1⟩⟩ ∧
    ([.Null, .Str "k"].filterMap tryIntoKey).length ≤ 2 :=
  (claim_C8_invalidation_total ⟨"c", .Array [.Null, .Str "k"]⟩ ⟨"h", 1⟩).1
    [.Null, .Str "k"] rfl

/-! ## Claims about the engine model -/

/-- Folding the receive loop over a frame stream resolves the oldest
outstanding request against each reply in order and leaves the rest of
the queue untouched. -/
lemma processFrames_fifo (frames : List Frame) :
    ∀ (reqs : List Request) (acc : List (Request × RedisValue)),
      (replyPayloads frames).length ≤ reqs.length →
      processFrames ⟨reqs, acc⟩ frames =
        ⟨reqs.drop (replyPayloads frames).length,
          acc ++ reqs.zip (replyPayloads frames)⟩ := by
  induction frames with
  | nil => intro reqs acc _; simp [processFrames, replyPayloads]
  | cons f fs ih =>
    intro reqs acc h
    cases f with
    | push v =>
      have hrp : replyPayloads (Frame.push v :: fs) = replyPayloads fs := by
        simp [replyPayloads]
      rw [hrp] at h ⊢
      simpa [processFrames, processFrame] using ih reqs acc h
    | reply v =>
      have hrp : replyPayloads (Frame.reply v :: fs) =
          v :: replyPayloads fs := by
        simp [replyPayloads]
      rw [hrp] at h ⊢
      cases reqs with
      | nil => simp at h
      | cons r rest =>
        have h' : (replyPayloads fs).length ≤ rest.length := by
          simpa using h
        have step : processFrames ⟨r :: rest, acc⟩ (Frame.reply v :: fs) =
            processFrames ⟨rest, acc ++ [(r, v)]⟩ fs := by
          simp [processFrames, processFrame]
        rw [step, ih rest (acc ++ [(r, v)]) h']
        simp [List.zip_cons_cons, List.append_assoc]

/-- Claim C1: with at most as many replies as outstanding requests, each
reply on a connection resolves the oldest outstanding request, so replies
match requests in exact send order regardless of interleaved push
frames. -/
theorem claim_C1_fifo_correlation (reqs : List Request) (frames : List Frame)
    (h : (replyPayloads frames).length ≤ reqs.length) :
    (processFrames ⟨reqs, []⟩ frames).resolved =
      reqs.zip (replyPayloads frames) ∧
    (processFrames ⟨reqs, []⟩ frames).queue =
      reqs.drop (replyPayloads frames).length := by
  rw [processFrames_fifo frames reqs [] h]
  simp

/-- Witness for claim C1: three pipelined requests, two replies with push
frames interleaved. -/
theorem claim_C1_fifo_correlation_witness :
    (processFrames ⟨[⟨1, true, 0⟩, ⟨2, true, 0⟩, ⟨3, true, 0⟩], []⟩
        [.push (.Integer 9), .reply (.Str "a"), .push .Null,
          .reply (.Str "b")]).resolved =
      [⟨1, true, 0⟩, ⟨2, true, 0⟩, ⟨3, true, 0⟩].zip
        (replyPayloads
          [.push (.Integer 9), .reply (.Str "a"), .push .Null,
            .reply (.Str "b")]) ∧
    (processFrames ⟨[⟨1, true, 0⟩, ⟨2, true, 0⟩, ⟨3, true, 0⟩], []⟩
        [.push (.Integer 9), .reply (.Str "a"), .push .Null,
          .reply (.Str "b")]).queue =
      [⟨1, true, 0⟩, ⟨2, true, 0⟩, ⟨3, true, 0⟩].drop
        (replyPayloads
          [.push (.Integer 9), .reply (.Str "a"), .push .Null,
            .reply (.Str "b")]).length :=
  claim_C1_fifo_correlation [⟨1, true, 0⟩, ⟨2, true, 0⟩, ⟨3, true, 0⟩]
    [.push (.Integer 9), .reply (.Str "a"), .push .Null, .reply (.Str "b")]
    (by decide)

/-- The bounded retry loop only ever yields a success, or
`RetriesExhausted`. -/
lemma retryLoop_disconnectOutcome :
    ∀ (n : Nat) (attempts : List (Option RedisValue)),
      disconnectOutcome (retryLoop n attempts) := by
  intro n
  induction n with
  | zero => intro attempts; trivial
  | succ n ih =>
    intro attempts
    cases attempts with
    | nil => trivial
    | cons a rest => cases a with
      | none => exact ih rest
      | some v => trivial

/-- Claim C2: reconciling the queue drained at a disconnect resolves every
previously in-flight request exactly once — in order, none lost, none
duplicated — and each resolution is retried-and-succeeded,
`ConnectionLost`, or `RetriesExhausted`. -/
theorem claim_C2_disconnect_reconciliation (reqs : List Request)
    (frames : List Frame)
    (attemptsFor : Request → List (Option RedisValue)) :
    (reconcileAll (processFrames ⟨reqs, []⟩ frames).queue attemptsFor).map
        Prod.fst =
      (processFrames ⟨reqs, []⟩ frames).queue ∧
    (∀ p ∈ reconcileAll (processFrames ⟨reqs, []⟩ frames).queue attemptsFor,
      disconnectOutcome p.2) ∧
    (∀ r : Request,
      ((reconcileAll (processFrames ⟨reqs, []⟩ frames).queue
          attemptsFor).map Prod.fst).count r =
        ((processFrames ⟨reqs, []⟩ frames).queue).count r) := by
  have hmap : ∀ (l : List Request),
      (reconcileAll l attemptsFor).map Prod.fst = l := by
    intro l
    simp only [reconcileAll, List.map_map]
    exact List.map_id l
  refine ⟨hmap _, ?_, fun r => by rw [hmap]⟩
  intro p hp
  simp only [reconcileAll, List.mem_map] at hp
  obtain ⟨r, _, rfl⟩ := hp
  show disconnectOutcome (reconcile r (attemptsFor r))
  unfold reconcile
  split
  · exact retryLoop_disconnectOutcome _ _
  · trivial

/-- Witness for claim C2: two requests left in flight by a disconnect, one
retried to success and one not retryable. -/
theorem claim_C2_disconnect_reconciliation_witness :
    (reconcileAll
        (processFrames ⟨[⟨1, true, 2⟩, ⟨2, false, 0⟩], []⟩ []).queue
        (fun _ => [some (.Str "v")])).map Prod.fst =
      (processFrames ⟨[⟨1, true, 2⟩, ⟨2, false, 0⟩], []⟩ []).queue ∧
    (∀ p ∈ reconcileAll
        (processFrames ⟨[⟨1, true, 2⟩, ⟨2, false, 0⟩], []⟩ []).queue
        (fun _ => [some (.Str "v")]),
      disconnectOutcome p.2) ∧
    (∀ r : Request,
      ((reconcileAll
          (processFrames ⟨[⟨1, true, 2⟩, ⟨2, false, 0⟩], []⟩ []).queue
          (fun _ => [some (.Str "v")])).map Prod.fst).count r =
        ((processFrames ⟨[⟨1, true, 2⟩, ⟨2, false, 0⟩], []⟩ []).queue).count r) :=
  claim_C2_disconnect_reconciliation [⟨1, true, 2⟩, ⟨2, false, 0⟩] []
    (fun _ => [some (.Str "v")])

/-- Claim C5: a `MOVED` reply for slot S naming server B re-routes the
original command to B with no caller-visible error or completion, schedules
a topology refresh, and once a refresh establishing B as owner of S
completes, commands for S route directly to B. -/
theorem claim_C5_moved_redirection (st : MuxState) (S : Nat) (B : Server) :
    (handleReply st (.moved S B)).1 = .retryAt B false ∧
    (∀ e, (handleReply st (.moved S B)).1 ≠ .fail e) ∧
    (∀ v, (handleReply st (.moved S B)).1 ≠ .complete v) ∧
    (handleReply st (.moved S B)).2.refreshScheduled = true ∧
    (∀ newOwner : Nat → Server, newOwner S = B →
      routeCommand (applyRefresh (handleReply st (.moved S B)).2 newOwner) S
        = B) := by
  refine ⟨rfl, fun e => by simp [handleReply], fun v => by simp [handleReply],
    rfl, fun newOwner hB => ?_⟩
  simpa [routeCommand, applyRefresh, handleReply] using hB

/-- Witness for claim C5 at a concrete state, slot and target server. -/
theorem claim_C5_moved_redirection_witness :
    routeCommand
        (applyRefresh
          (handleReply ⟨fun _ => ⟨"a", 1⟩, false⟩ (.moved 3 ⟨"b", 2⟩)).2
          (fun _ => ⟨"b", 2⟩))
        3 = ⟨"b", 2⟩ :=
  (claim_C5_moved_redirection ⟨fun _ => ⟨"a", 1⟩, false⟩ 3 ⟨"b", 2⟩).2.2.2.2
    (fun _ => ⟨"b", 2⟩) rfl

/-- Any snapshot of the shared cell is one of the complete published
maps. -/
lemma foldl_applyTopoEvent_mem (l : List TopoEvent) :
    ∀ init : SharedSlotMap,
      (l.foldl applyTopoEvent init).current = init.current ∨
        ∃ e ∈ l, (l.foldl applyTopoEvent init).current = e.payload := by
  induction l with
  | nil => intro init; exact Or.inl rfl
  | cons e l ih =>
    intro init
    rcases ih (applyTopoEvent init e) with h | ⟨e', he', h⟩
    · cases e with
      | publish m =>
        exact Or.inr ⟨.publish m, List.mem_cons_self _ _, by
          simpa [List.foldl_cons] using h⟩
    · exact Or.inr ⟨e', List.mem_cons_of_mem _ he',
        by simpa [List.foldl_cons] using h⟩

/-- Claim C6: a slot-map refresh is an atomic wholesale swap — a reader's
snapshot during a single refresh is the complete old partition or the
complete new partition, and in general every snapshot is one of the
complete published maps, never a mix. -/
theorem claim_C6_atomic_swap :
    (∀ (oldMap newMap : SlotMap) (t : Nat),
      readSnapshot ⟨oldMap⟩ [.publish newMap] t = oldMap ∨
        readSnapshot ⟨oldMap⟩ [.publish newMap] t = newMap) ∧
    (∀ (init : SharedSlotMap) (events : List TopoEvent) (t : Nat),
      readSnapshot init events t = init.current ∨
        ∃ e ∈ events, readSnapshot init events t = e.payload) := by
  have general : ∀ (init : SharedSlotMap) (events : List TopoEvent) (t : Nat),
      readSnapshot init events t = init.current ∨
        ∃ e ∈ events, readSnapshot init events t = e.payload := by
    intro init events t
    rcases foldl_applyTopoEvent_mem (events.take t) init with h | ⟨e, he, h⟩
    · exact Or.inl h
    · exact Or.inr ⟨e, List.take_subset t events he, h⟩
  refine ⟨fun oldMap newMap t => ?_, general⟩
  rcases general ⟨oldMap⟩ [.publish newMap] t with h | ⟨e, he, h⟩
  · exact Or.inl h
  · rcases List.mem_singleton.mp he with rfl
    exact Or.inr h

/-- Witness for claim C6 at a concrete pair of slot maps. -/
theorem claim_C6_atomic_swap_witness :
    readSnapshot ⟨fun _ => ⟨"a", 1⟩⟩ [.publish fun _ => ⟨"b", 2⟩] 1 =
        (fun _ => (⟨"a", 1⟩ : Server)) ∨
      readSnapshot ⟨fun _ => ⟨"a", 1⟩⟩ [.publish fun _ => ⟨"b", 2⟩] 1 =
        (fun _ => (⟨"b", 2⟩ : Server)) :=
  claim_C6_atomic_swap.1 (fun _ => ⟨"a", 1⟩) (fun _ => ⟨"b", 2⟩) 1

/-- Claim C7: discovery fails with `ClusterStateError` exactly when some
slot is left unowned; every command routed while only failed discoveries
have run fails with `RoutingError`; and after a refresh that covers all
slots succeeds, routing a valid slot yields its owner. -/
theorem claim_C7_discovery_completeness :
    (∀ ranges, discover ranges = .error .ClusterStateError ↔
      ∃ s, s < totalSlots ∧ rangeOwner ranges s = none) ∧
    (∀ failed : List (List SlotRange),
      (∀ rs ∈ failed, ∃ s, s < totalSlots ∧ rangeOwner rs s = none) →
      ∀ slot, routeSlot (failed.foldl applyDiscovery emptySlotMap) slot =
        .error .RoutingError) ∧
    (∀ (m : Nat → Option Server) (ranges : List SlotRange),
      (∀ s, s < totalSlots → (rangeOwner ranges s).isSome) →
      ∀ slot, slot < totalSlots →
        ∃ srv, routeSlot (applyDiscovery m ranges) slot = .ok srv) := by
  have herr : ∀ ranges, discover ranges = .error .ClusterStateError ↔
      ∃ s, s < totalSlots ∧ rangeOwner ranges s = none := by
    intro ranges
    unfold discover
    split
    · next hall =>
      simp only [List.all_eq_true, List.mem_range] at hall
      constructor
      · intro h; exact absurd h (by simp)
      · rintro ⟨s, hs, hnone⟩
        exact absurd (hall s hs) (by simp [hnone])
    · next hall =>
      simp only [List.all_eq_true, List.mem_range, not_forall] at hall
      constructor
      · intro _
        obtain ⟨s, hs, hnotsome⟩ := hall
        exact ⟨s, hs, Option.not_isSome_iff_eq_none.mp hnotsome⟩
      · intro _; rfl
  refine ⟨herr, fun failed hfailed slot => ?_, fun m ranges hcomplete slot hslot => ?_⟩
  · have hempty : failed.foldl applyDiscovery emptySlotMap = emptySlotMap := by
      induction failed with
      | nil => rfl
      | cons rs rest ih =>
        have hdisc : discover rs = .error .ClusterStateError :=
          (herr rs).mpr (hfailed rs (List.mem_cons_self _ _))
        have hstep : applyDiscovery emptySlotMap rs = emptySlotMap := by
          unfold applyDiscovery
          rw [hdisc]
        rw [List.foldl_cons, hstep]
        exact ih fun rs' h => hfailed rs' (List.mem_cons_of_mem _ h)
    rw [hempty]
    rfl
  · have hok : discover ranges = .ok (rangeOwner ranges) := by
      unfold discover
      split
      · rfl
      · next hall =>
        refine absurd ?_ hall
        simp only [List.all_eq_true, List.mem_range]
        exact fun s hs => hcomplete s hs
    obtain ⟨srv, hsrv⟩ :=
      Option.isSome_iff_exists.mp (hcomplete slot hslot)
    have happ : applyDiscovery m ranges = rangeOwner ranges := by
      unfold applyDiscovery
      rw [hok]
    rw [happ]
    refine ⟨srv, ?_⟩
    unfold routeSlot
    rw [hsrv]

/-- Witness for claim C7: after one failed discovery over an empty
ownership table, routing any slot fails with `RoutingError`. -/
theorem claim_C7_discovery_completeness_witness :
    routeSlot ([[]].foldl applyDiscovery emptySlotMap) 5 =
      .error .RoutingError :=
  claim_C7_discovery_completeness.2.1 [[]]
    (by
      intro rs h
      rcases List.mem_singleton.mp h with rfl
      exact ⟨0, by decide, rfl⟩)
    5

end Fred
